import Mathlib

/-!
Shallow embedding of the PacketStreamer receiver pipeline
(`pkg/streamer/receiver.go`) and proofs of the specification claims.

Bytes are modelled as `Nat` (with `< 256` hypotheses where byte-ness
matters), Go byte slices as `List Nat`, and the nondeterministic behaviour
of `net.Conn.Read` as an explicit trace of read results supplied as input.
-/

namespace PacketStreamer

/-- Classification of the error value produced by one underlying
`hostConn.Read` call: `io.EOF`, a timeout (`os.IsTimeout`), or any other
error. `none` in an `Option ReadErr` is Go's `nil` error. -/
inductive ReadErr
  | eof
  | timeout
  | other
deriving DecidableEq

/-- One underlying `hostConn.Read` call's outcome: the bytes it wrote into
the supplied slice (`chunk`, so `bytesRead = chunk.length`) and the error
value it returned. -/
structure ReadResult where
  chunk : List Nat
  err : Option ReadErr
deriving DecidableEq

/-- Classified failure returned by `readDataFromSocket`: the generic
connection error (line 40 of receiver.go), the abrupt-close error
(line 43), or the propagated timeout error (line 46). -/
inductive SockErr
  | connError
  | abruptClose
  | timeout
deriving DecidableEq

/-- `hdrData`: the 4 magic bytes of the wire format. -/
def hdrData : List Nat := [0xde, 0xef, 0xec, 0xe0]

/-- `payloadMarkerLen`: width of the little-endian payload length field. -/
def payloadMarkerLen : Nat := 4

/-- `compressFlagByteLen`: width of the compression flag field. -/
def compressFlagByteLen : Nat := 1

/-- `maxNumPkts`: capacity of the frame queue and the size queue. -/
def maxNumPkts : Nat := 100

/-- `totalHdrLen = len(hdrData) + payloadMarkerLen + compressFlagByteLen = 9`. -/
def totalHdrLen : Nat := hdrData.length + payloadMarkerLen + compressFlagByteLen

/-- Writing a chunk of bytes into a buffer at an offset, as a Go `Read`
into the sub-slice starting at that offset does. -/
def writeAt (buf : List Nat) (off : Nat) (c : List Nat) : List Nat :=
  buf.take off ++ c ++ buf.drop (off + c.length)

/-- `readDataFromSocket` (receiver.go lines 28-61): read exactly
`bytesToRead` bytes into `dataBuff`, looping over the trace of underlying
read results.  Returns `none` when the trace is exhausted before the loop
returns (the Go loop would still be blocked in `Read`); otherwise
`some (err, buffer, totalBytesRead)` where `err = none` is the function's
`nil` return.  The branch structure mirrors the Go `if` chain in order. -/
def readDataFromSocket : List ReadResult → Nat → List Nat → Nat → Option (Option SockErr × List Nat × Nat)
  | [], _, _, _ => none
  | r :: rs, bytesToRead, dataBuff, totalBytesRead =>
    let buf1 := writeAt dataBuff totalBytesRead r.chunk
    if r.err ≠ none ∧ r.err ≠ some ReadErr.eof ∧ r.err ≠ some ReadErr.timeout then
      some (some SockErr.connError, buf1, totalBytesRead)
    else if r.err = some ReadErr.eof ∧ totalBytesRead ≠ bytesToRead then
      some (some SockErr.abruptClose, buf1, totalBytesRead)
    else if r.err = some ReadErr.timeout ∧ totalBytesRead ≠ bytesToRead then
      some (some SockErr.timeout, buf1, totalBytesRead)
    else if r.chunk.length = 0 ∧ r.err ≠ none then
      some (none, buf1, totalBytesRead)
    else if r.chunk.length = 0 ∧ r.err = none then
      some (none, buf1, totalBytesRead)
    else
      let total1 := totalBytesRead + r.chunk.length
      if total1 = bytesToRead then some (none, buf1, total1)
      else readDataFromSocket rs bytesToRead buf1 total1

/-- `binary.LittleEndian.Uint32` on the first four bytes of a list. -/
def u32leDecode (l : List Nat) : Nat :=
  l.getD 0 0 + l.getD 1 0 * 256 + l.getD 2 0 * 65536 + l.getD 3 0 * 16777216

/-- The 4-byte little-endian encoding of a length, as a sender writes it. -/
def u32leEncode (n : Nat) : List Nat :=
  [n % 256, n / 256 % 256, n / 65536 % 256, n / 16777216 % 256]

/-- Header validation as performed inline by `readPkts` (receiver.go lines
78-91, flag extraction line 101): first the magic-byte comparison, then the
length-bound check `int(compressedDataLen) > maxFrameBytes - totalHdrLen`
(carried out in `Int` because the Go comparison is over signed ints).
`none` is a protocol violation; `some (len, isCompressed)` lets the caller
read `len` payload bytes. -/
def validateHeader (maxFrameBytes : Nat) (dataBuff : List Nat) : Option (Nat × Bool) :=
  if dataBuff.take hdrData.length = hdrData then
    let compressedDataLen := u32leDecode (dataBuff.drop hdrData.length)
    if (compressedDataLen : Int) > (maxFrameBytes : Int) - (totalHdrLen : Int) then
      none
    else
      some (compressedDataLen, dataBuff.getD (hdrData.length + payloadMarkerLen) 0 != 0)
  else none

/-- `CompressData` (fields as used at receiver.go lines 99-102): the frame
payload and its compression flag. -/
structure CompressData where
  Data : List Nat
  IsCompressed : Bool
deriving DecidableEq

/-- The Go `select { case ch <- x: default: }` push onto a buffered channel
of the given capacity: non-blocking, appends when there is room, otherwise
leaves the queue unchanged and reports the drop. -/
def trySend {α : Type} (cap : Nat) (q : List α) (x : α) : List α × Bool :=
  if q.length < cap then (q ++ [x], true) else (q, false)

/-- Observable outcome of one iteration of the `readPkts` loop. -/
structure IterOut where
  buf : List Nat
  q : List CompressData
  sq : List Nat
  connCloses : Nat
  chanCloses : Nat
  terminated : Bool
  emitted : Option CompressData
  frameDropped : Bool
  sizeDropped : Bool
  payloadReadAttempted : Bool
  loggedError : Bool
deriving DecidableEq

/-- One iteration of the `readPkts` loop (receiver.go lines 68-113) over a
buffer of `maxFrameBytes = config.CompressBlockSize * kilobyte` bytes, with
the current frame queue `q` and size queue `sq`.  `hdrTrace` and `payTrace`
are the traces of underlying reads consumed by the header read and the
payload read.  `none` models an iteration still blocked in a read. -/
def readPktsIter (maxFrameBytes : Nat) (buf : List Nat) (q : List CompressData)
    (sq : List Nat) (hdrTrace payTrace : List ReadResult) : Option IterOut :=
  match readDataFromSocket hdrTrace totalHdrLen (buf.take totalHdrLen) 0 with
  | none => none
  | some (some e, hbuf, _) =>
    some { buf := hbuf ++ buf.drop totalHdrLen, q := q, sq := sq,
           connCloses := 1, chanCloses := 1, terminated := true,
           emitted := none, frameDropped := false, sizeDropped := false,
           payloadReadAttempted := false, loggedError := e ≠ SockErr.timeout }
  | some (none, hbuf, _) =>
    let buf1 := hbuf ++ buf.drop totalHdrLen
    match validateHeader maxFrameBytes buf1 with
    | none =>
      some { buf := buf1, q := q, sq := sq,
             connCloses := 1, chanCloses := 1, terminated := true,
             emitted := none, frameDropped := false, sizeDropped := false,
             payloadReadAttempted := false, loggedError := true }
    | some (compressedDataLen, _) =>
      match readDataFromSocket payTrace compressedDataLen
          ((buf1.drop totalHdrLen).take compressedDataLen) 0 with
      | none => none
      | some (some _, pbuf, _) =>
        some { buf := buf1.take totalHdrLen ++ pbuf ++ buf1.drop (totalHdrLen + compressedDataLen),
               q := q, sq := sq,
               connCloses := 1, chanCloses := 1, terminated := true,
               emitted := none, frameDropped := false, sizeDropped := false,
               payloadReadAttempted := true, loggedError := true }
      | some (none, pbuf, _) =>
        let buf2 := buf1.take totalHdrLen ++ pbuf ++ buf1.drop (totalHdrLen + compressedDataLen)
        let dataToUncompress : CompressData :=
          { Data := (buf2.drop totalHdrLen).take compressedDataLen,
            IsCompressed := buf2.getD (hdrData.length + payloadMarkerLen) 0 != 0 }
        let push1 := trySend maxNumPkts q dataToUncompress
        let push2 := trySend maxNumPkts sq (totalHdrLen + compressedDataLen)
        some { buf := buf2, q := push1.1, sq := push2.1,
               connCloses := 0, chanCloses := 0, terminated := false,
               emitted := some dataToUncompress,
               frameDropped := !push1.2, sizeDropped := !push2.2,
               payloadReadAttempted := true, loggedError := false }

/-- The `readPkts` loop run over a list of per-iteration traces; returns
the session totals `(connection closes, frame-queue closes, terminated)`.
A terminating iteration ends the session; exhausting the trace list (or
blocking in a read) leaves the session running. -/
def readPktsLoop (maxFrameBytes : Nat) : List Nat → List CompressData → List Nat →
    List (List ReadResult × List ReadResult) → Nat × Nat × Bool
  | _, _, _, [] => (0, 0, false)
  | buf, q, sq, (ht, pt) :: rest =>
    match readPktsIter maxFrameBytes buf q sq ht pt with
    | none => (0, 0, false)
    | some out =>
      if out.terminated then (out.connCloses, out.chanCloses, true)
      else
        let r := readPktsLoop maxFrameBytes out.buf out.q out.sq rest
        (out.connCloses + r.1, out.chanCloses + r.2.1, r.2.2)

/-- What `processHost` (receiver.go lines 163-184) creates and starts for
one accepted connection.  `connClosedOnReject` is the closing performed by
the auth collaborator.

Modelled from the spec: the body of `handleServerAuth` is not under `src/`;
per §4.4 "On rejection, the connection is closed and no pipeline is started
for it".  The branching itself (frame queue made and the two stages started
exactly when auth is disabled or the handshake accepts) is from the source. -/
structure HostConnOutcome where
  frameQueueCreated : Bool
  decompressStarted : Bool
  readPktsStarted : Bool
  connClosedOnReject : Bool
deriving DecidableEq

/-- Per-connection accept handling of `processHost` (receiver.go lines
171-183): with auth enabled, the queue and the two per-connection tasks are
created only when `handleServerAuth` accepts; with auth disabled they are
always created. -/
def processHostConn (authEnable authOk : Bool) : HostConnOutcome :=
  if authEnable then
    if authOk then
      { frameQueueCreated := true, decompressStarted := true,
        readPktsStarted := true, connClosedOnReject := false }
    else
      { frameQueueCreated := false, decompressStarted := false,
        readPktsStarted := false, connClosedOnReject := true }
  else
    { frameQueueCreated := true, decompressStarted := true,
      readPktsStarted := true, connClosedOnReject := false }

end PacketStreamer

namespace PacketStreamer

lemma writeAt_nil (buf : List Nat) (off : Nat) : writeAt buf off [] = buf := by
  simp [writeAt]

lemma writeAt_zero_of_le (buf c : List Nat) (h : buf.length ≤ c.length) :
    writeAt buf 0 c = c := by
  simp [writeAt, List.drop_eq_nil_of_le h]

lemma writeAt_length (buf c : List Nat) (off : Nat) (h : off + c.length ≤ buf.length) :
    (writeAt buf off c).length = buf.length := by
  simp [writeAt, List.length_take, List.length_drop]
  omega

end PacketStreamer

namespace PacketStreamer

/-- C4: with authentication enabled and the handshake collaborator rejecting,
`processHost` creates no frame queue, starts no decompression stage and no
read pipeline for the connection (so no data from it can reach the output
sink), and the connection is closed (closing on rejection modelled from the
spec, §4.4). -/
theorem auth_reject_discards_connection :
    processHostConn true false =
      { frameQueueCreated := false, decompressStarted := false,
        readPktsStarted := false, connClosedOnReject := true } := rfl

/-- C8: a push onto a full bounded queue returns the queue unchanged and
reports the drop of the newest item, and under any sequence of pushes the
queue length never exceeds its capacity. -/
theorem trySend_drops_when_full {α : Type} (cap : Nat) (q : List α) (x : α)
    (xs : List α) :
    (cap ≤ q.length → trySend cap q x = (q, false)) ∧
    (q.length ≤ cap →
      (xs.foldl (fun acc y => (trySend cap acc y).1) q).length ≤ cap) := by
  constructor
  · intro h
    simp [trySend]
    omega
  · intro h
    induction xs generalizing q with
    | nil => simpa using h
    | cons y ys ih =>
      simp only [List.foldl_cons]
      apply ih
      simp only [trySend]
      split
      · simpa using by omega
      · exact h

theorem trySend_drops_when_full_witness :
    (2 ≤ ([1, 2] : List Nat).length) ∧
    (trySend 2 ([1, 2] : List Nat) 5 = ([1, 2], false) ∧
      (([6, 7, 8] : List Nat).foldl (fun acc y => (trySend 2 acc y).1) [1, 2]).length ≤ 2) :=
  ⟨by decide,
   (trySend_drops_when_full 2 [1, 2] 5 [6, 7, 8]).1 (by decide),
   (trySend_drops_when_full 2 [1, 2] 5 [6, 7, 8]).2 (by decide)⟩

/-- C3 (counterexample): a read-deadline timeout arriving before any byte of
the header read has accumulated does terminate the connection — the
iteration closes the transport handle and the frame queue (though it is not
logged), contradicting the claim that such a timeout is retried and does
not destroy the connection. -/
theorem timeout_not_retried_cex :
    (readPktsIter 16 (List.replicate 16 0) [] []
        [{ chunk := [], err := some ReadErr.timeout }] []).map
      (fun o => (o.terminated, o.connCloses, o.chanCloses, o.loggedError)) =
    some (true, 1, 1, false) := by decide

/-- C5 (counterexample): after a zero-byte, error-free read
`readDataFromSocket` returns success, and `readPkts` cannot distinguish
this from a completed header read: with stale magic bytes in the reusable
buffer the iteration proceeds to interpret the unfilled buffer as a frame
header, attempts the payload read and emits a frame, instead of stopping
the connection. -/
theorem zero_read_parses_stale_header_cex :
    (readPktsIter 9 [0xde, 0xef, 0xec, 0xe0, 0, 0, 0, 0, 0] [] []
        [{ chunk := [], err := none }] [{ chunk := [], err := none }]).map
      (fun o => (o.terminated, o.connCloses, o.emitted, o.payloadReadAttempted)) =
    some (false, 0, some { Data := [], IsCompressed := false }, true) := by decide

lemma readPktsIter_closes {maxFrameBytes : Nat} {buf : List Nat}
    {q : List CompressData} {sq : List Nat} {ht pt : List ReadResult} {out : IterOut}
    (h : readPktsIter maxFrameBytes buf q sq ht pt = some out) :
    (out.terminated = true → out.connCloses = 1 ∧ out.chanCloses = 1) ∧
    (out.terminated = false → out.connCloses = 0 ∧ out.chanCloses = 0) := by
  unfold readPktsIter at h
  repeat' first
    | split at h
    | simp only [] at h
  all_goals try exact Option.noConfusion h
  all_goals injection h with h
  all_goals subst h
  all_goals simp

end PacketStreamer

namespace PacketStreamer

/-- C9: over a whole connection session, the `readPkts` loop closes the
transport handle and the frame queue exactly once when some iteration
terminates it (fatal read error, protocol violation, peer close), and a
session whose iterations all continue closes neither. -/
theorem readPktsLoop_teardown_once (maxFrameBytes : Nat) (buf : List Nat)
    (q : List CompressData) (sq : List Nat)
    (traces : List (List ReadResult × List ReadResult)) (c1 c2 : Nat) (t : Bool)
    (h : readPktsLoop maxFrameBytes buf q sq traces = (c1, c2, t)) :
    (t = true → c1 = 1 ∧ c2 = 1) ∧ (t = false → c1 = 0 ∧ c2 = 0) := by
  induction traces generalizing buf q sq c1 c2 t with
  | nil =>
    simp [readPktsLoop] at h
    obtain ⟨rfl, rfl, rfl⟩ := h
    simp
  | cons p rest ih =>
    obtain ⟨ht, pt⟩ := p
    rw [readPktsLoop] at h
    split at h
    · simp only [Prod.mk.injEq] at h
      obtain ⟨rfl, rfl, rfl⟩ := h
      simp
    · next out hiter =>
      have hcl := readPktsIter_closes hiter
      by_cases hterm : out.terminated = true
      · rw [if_pos hterm] at h
        simp only [Prod.mk.injEq] at h
        obtain ⟨rfl, rfl, rfl⟩ := h
        obtain ⟨h1, h2⟩ := hcl.1 hterm
        simp [h1, h2]
      · rw [if_neg hterm] at h
        simp only [Prod.mk.injEq] at h
        obtain ⟨rfl, rfl, rfl⟩ := h
        obtain ⟨hz1, hz2⟩ := hcl.2 (by simpa using hterm)
        obtain ⟨hr1, hr2⟩ := ih out.buf out.q out.sq
          (readPktsLoop maxFrameBytes out.buf out.q out.sq rest).1
          (readPktsLoop maxFrameBytes out.buf out.q out.sq rest).2.1
          (readPktsLoop maxFrameBytes out.buf out.q out.sq rest).2.2 rfl
        constructor
        · intro htr
          obtain ⟨e1, e2⟩ := hr1 htr
          simp [hz1, hz2, e1, e2]
        · intro htr
          obtain ⟨e1, e2⟩ := hr2 htr
          simp [hz1, hz2, e1, e2]

theorem readPktsLoop_teardown_once_witness :
    readPktsLoop 16 (List.replicate 16 0) [] []
        [([{ chunk := [], err := some ReadErr.timeout }], [])] = (1, 1, true) ∧
    ((true = true → 1 = 1 ∧ 1 = 1) ∧ (true = false → 1 = 0 ∧ 1 = 0)) :=
  ⟨by decide,
   readPktsLoop_teardown_once 16 (List.replicate 16 0) [] []
     [([{ chunk := [], err := some ReadErr.timeout }], [])] 1 1 true (by decide)⟩

end PacketStreamer

namespace PacketStreamer

lemma totalHdrLen_eq : totalHdrLen = 9 := rfl

lemma u32leDecode_append (l r : List Nat) (h : 4 ≤ l.length) :
    u32leDecode (l ++ r) = u32leDecode l := by
  unfold u32leDecode
  rw [List.getD_append l r 0 0 (by omega), List.getD_append l r 0 1 (by omega),
    List.getD_append l r 0 2 (by omega), List.getD_append l r 0 3 (by omega)]

lemma u32leDecode_encode (n : Nat) (rest : List Nat) (h : n < 4294967296) :
    u32leDecode (u32leEncode n ++ rest) = n := by
  show (n % 256) + (n / 256 % 256) * 256 + (n / 65536 % 256) * 65536 +
    (n / 16777216 % 256) * 16777216 = n
  omega

lemma validateHeader_append (m : Nat) (hdr rest : List Nat)
    (h9 : hdr.length = totalHdrLen) :
    validateHeader m (hdr ++ rest) = validateHeader m hdr := by
  unfold validateHeader
  rw [List.take_append_of_le_length (by rw [h9]; decide),
    List.drop_append_of_le_length (by rw [h9]; decide),
    u32leDecode_append _ _ (by rw [List.length_drop, h9]; decide),
    List.getD_append _ _ _ _ (by rw [h9]; decide)]

lemma validateHeader_inv {m : Nat} {buf : List Nat} {len : Nat} {c : Bool}
    (h : validateHeader m buf = some (len, c)) :
    buf.take hdrData.length = hdrData ∧
    len = u32leDecode (buf.drop hdrData.length) ∧
    (len : Int) ≤ (m : Int) - (totalHdrLen : Int) ∧
    c = (buf.getD (hdrData.length + payloadMarkerLen) 0 != 0) := by
  unfold validateHeader at h
  split at h
  · next hmag =>
    simp only [] at h
    split at h
    · exact Option.noConfusion h
    · next hgt =>
      injection h with h
      simp only [Prod.mk.injEq] at h
      obtain ⟨h1, h2⟩ := h
      subst h1
      exact ⟨hmag, rfl, by omega, h2.symm⟩
  · exact Option.noConfusion h

lemma readDataFromSocket_single_full (c : List Nat) (n : Nat) (buf : List Nat)
    (rest : List ReadResult) (hc : c.length = n) (hn : 0 < n)
    (hbuf : buf.length ≤ n) :
    readDataFromSocket ({ chunk := c, err := none } :: rest) n buf 0 =
      some (none, c, n) := by
  unfold readDataFromSocket
  simp only [hc]
  rw [if_neg (by simp), if_neg (by simp), if_neg (by simp), if_neg (by simp),
    if_neg (by simp; omega), if_pos (by omega),
    writeAt_zero_of_le _ _ (by omega)]
  simp

lemma readDataFromSocket_zero_read (rest : List ReadResult) (n total : Nat)
    (buf : List Nat) :
    readDataFromSocket ({ chunk := [], err := none } :: rest) n buf total =
      some (none, buf, total) := by
  unfold readDataFromSocket
  rw [if_neg (by simp), if_neg (by simp), if_neg (by simp), if_neg (by simp),
    if_pos (by simp)]
  rw [writeAt_nil]

end PacketStreamer

namespace PacketStreamer

/-- C2: for a 9-byte header, validation fails when the first 4 bytes differ
from the magic constant (whatever the remaining bytes are), fails when the
little-endian 32-bit length at offsets 4..7 exceeds
`maxFrameBytes - totalHdrLen`, and otherwise succeeds returning that length
and the compression flag; and a failed validation terminates the connection
(transport and frame queue closed) with no payload read attempted. -/
theorem validateHeader_spec (maxFrameBytes : Nat) (hdr : List Nat)
    (h9 : hdr.length = totalHdrLen) :
    (hdr.take hdrData.length ≠ hdrData → validateHeader maxFrameBytes hdr = none) ∧
    ((u32leDecode (hdr.drop hdrData.length) : Int) >
        (maxFrameBytes : Int) - (totalHdrLen : Int) →
      validateHeader maxFrameBytes hdr = none) ∧
    (hdr.take hdrData.length = hdrData →
      (u32leDecode (hdr.drop hdrData.length) : Int) ≤
          (maxFrameBytes : Int) - (totalHdrLen : Int) →
      validateHeader maxFrameBytes hdr =
        some (u32leDecode (hdr.drop hdrData.length),
          hdr.getD (hdrData.length + payloadMarkerLen) 0 != 0)) ∧
    (∀ (buf : List Nat) (q : List CompressData) (sq : List Nat)
        (payTrace : List ReadResult),
      totalHdrLen ≤ buf.length →
      validateHeader maxFrameBytes hdr = none →
      readPktsIter maxFrameBytes buf q sq [{ chunk := hdr, err := none }] payTrace =
        some { buf := hdr ++ buf.drop totalHdrLen, q := q, sq := sq,
               connCloses := 1, chanCloses := 1, terminated := true,
               emitted := none, frameDropped := false, sizeDropped := false,
               payloadReadAttempted := false, loggedError := true }) := by
  refine ⟨?_, ?_, ?_, ?_⟩
  · intro hmag
    unfold validateHeader
    rw [if_neg hmag]
  · intro hgt
    unfold validateHeader
    split
    · rw [if_pos hgt]
    · rfl
  · intro hmag hle
    unfold validateHeader
    rw [if_pos hmag, if_neg (by omega)]
  · intro buf q sq payTrace hlen hval
    have h1 : readDataFromSocket [{ chunk := hdr, err := none }] totalHdrLen
        (buf.take totalHdrLen) 0 = some (none, hdr, totalHdrLen) :=
      readDataFromSocket_single_full hdr totalHdrLen (buf.take totalHdrLen) []
        h9 (by decide) (by simp [List.length_take])
    unfold readPktsIter
    rw [h1]
    simp only [validateHeader_append maxFrameBytes hdr (buf.drop totalHdrLen) h9, hval]

theorem validateHeader_spec_witness :
    (hdrData ++ (u32leEncode 3 ++ [1]) : List Nat).length = totalHdrLen ∧
    (((hdrData ++ (u32leEncode 3 ++ [1])).take hdrData.length ≠ hdrData →
        validateHeader 16 (hdrData ++ (u32leEncode 3 ++ [1])) = none) ∧
      ((u32leDecode ((hdrData ++ (u32leEncode 3 ++ [1])).drop hdrData.length) : Int) >
          (16 : Int) - (totalHdrLen : Int) →
        validateHeader 16 (hdrData ++ (u32leEncode 3 ++ [1])) = none) ∧
      ((hdrData ++ (u32leEncode 3 ++ [1])).take hdrData.length = hdrData →
        (u32leDecode ((hdrData ++ (u32leEncode 3 ++ [1])).drop hdrData.length) : Int) ≤
            (16 : Int) - (totalHdrLen : Int) →
        validateHeader 16 (hdrData ++ (u32leEncode 3 ++ [1])) =
          some (u32leDecode ((hdrData ++ (u32leEncode 3 ++ [1])).drop hdrData.length),
            (hdrData ++ (u32leEncode 3 ++ [1])).getD (hdrData.length + payloadMarkerLen) 0 != 0)) ∧
      (∀ (buf : List Nat) (q : List CompressData) (sq : List Nat)
          (payTrace : List ReadResult),
        totalHdrLen ≤ buf.length →
        validateHeader 16 (hdrData ++ (u32leEncode 3 ++ [1])) = none →
        readPktsIter 16 buf q sq
            [{ chunk := hdrData ++ (u32leEncode 3 ++ [1]), err := none }] payTrace =
          some { buf := (hdrData ++ (u32leEncode 3 ++ [1])) ++ buf.drop totalHdrLen,
                 q := q, sq := sq, connCloses := 1, chanCloses := 1, terminated := true,
                 emitted := none, frameDropped := false, sizeDropped := false,
                 payloadReadAttempted := false, loggedError := true })) :=
  ⟨by decide, validateHeader_spec 16 (hdrData ++ (u32leEncode 3 ++ [1])) (by decide)⟩

/-- C10: once header validation (in particular its length check) has
passed, every slice of the reusable buffer taken by the loop body is within
the buffer's allocated size: the 9-byte header slice, the payload slice
`[totalHdrLen, totalHdrLen + len)`, and the flag byte at index 8. -/
theorem frame_slices_in_bounds (maxFrameBytes len : Nat) (c : Bool)
    (hdr buf : List Nat)
    (hval : validateHeader maxFrameBytes hdr = some (len, c))
    (hbuf : buf.length = maxFrameBytes) :
    totalHdrLen ≤ buf.length ∧
    totalHdrLen + len ≤ buf.length ∧
    hdrData.length + payloadMarkerLen < buf.length ∧
    (buf.take totalHdrLen).length = totalHdrLen ∧
    ((buf.drop totalHdrLen).take len).length = len := by
  obtain ⟨-, -, hle, -⟩ := validateHeader_inv hval
  rw [totalHdrLen_eq] at hle
  have h1 : 9 + len ≤ maxFrameBytes := by omega
  refine ⟨by rw [totalHdrLen_eq]; omega, by rw [totalHdrLen_eq]; omega,
    by simp [hdrData, payloadMarkerLen]; omega, ?_, ?_⟩
  · simp [List.length_take, totalHdrLen_eq]
    omega
  · simp [List.length_take, List.length_drop, totalHdrLen_eq]
    omega

theorem frame_slices_in_bounds_witness :
    validateHeader 16 (hdrData ++ (u32leEncode 3 ++ [1])) = some (3, true) ∧
    (List.replicate 16 0 : List Nat).length = 16 ∧
    (totalHdrLen ≤ (List.replicate 16 0 : List Nat).length ∧
      totalHdrLen + 3 ≤ (List.replicate 16 0 : List Nat).length ∧
      hdrData.length + payloadMarkerLen < (List.replicate 16 0 : List Nat).length ∧
      ((List.replicate 16 0 : List Nat).take totalHdrLen).length = totalHdrLen ∧
      (((List.replicate 16 0 : List Nat).drop totalHdrLen).take 3).length = 3) :=
  ⟨by decide, by decide,
   frame_slices_in_bounds 16 3 true (hdrData ++ (u32leEncode 3 ++ [1]))
     (List.replicate 16 0) (by decide) (by decide)⟩

end PacketStreamer

namespace PacketStreamer

lemma chunks_sum_zero (rs : List ReadResult) (hne : ∀ r ∈ rs, r.chunk ≠ [])
    (hsum : (rs.map (fun r => r.chunk.length)).sum = 0) : rs = [] := by
  cases rs with
  | nil => rfl
  | cons r rs =>
    exfalso
    simp only [List.map_cons, List.sum_cons] at hsum
    exact (hne r (by simp)) (List.length_eq_zero.mp (by omega))

lemma readDataFromSocket_chunks_step (n : Nat) (trace rest : List ReadResult) :
    ∀ (buf : List Nat) (total : Nat),
      (∀ r ∈ trace, r.err = none ∧ r.chunk ≠ []) →
      total + (trace.map (fun r => r.chunk.length)).sum < n →
      ∃ b, readDataFromSocket (trace ++ rest) n buf total =
        readDataFromSocket rest n b
          (total + (trace.map (fun r => r.chunk.length)).sum) := by
  induction trace with
  | nil =>
    intro buf total _ _
    exact ⟨buf, by simp⟩
  | cons r rs ih =>
    intro buf total hok hlt
    obtain ⟨herr, hne⟩ := hok r (by simp)
    have hlen : r.chunk.length ≠ 0 := fun h => hne (List.length_eq_zero.mp h)
    simp only [List.map_cons, List.sum_cons] at hlt ⊢
    simp only [List.cons_append, readDataFromSocket, herr]
    rw [if_neg (by simp), if_neg (by simp), if_neg (by simp), if_neg (by simp),
      if_neg (by simp [hlen]), if_neg (by omega)]
    obtain ⟨b, hb⟩ := ih (writeAt buf total r.chunk) (total + r.chunk.length)
      (fun s hs => hok s (by simp [hs])) (by omega)
    refine ⟨b, ?_⟩
    simp only [List.append_eq]
    rw [hb, Nat.add_assoc]

lemma readDataFromSocket_chunks_exact (n : Nat) (trace : List ReadResult) :
    ∀ (buf : List Nat) (total : Nat),
      (∀ r ∈ trace, r.err = none ∧ r.chunk ≠ []) →
      total < n → buf.length = n →
      total + (trace.map (fun r => r.chunk.length)).sum = n →
      readDataFromSocket trace n buf total =
        some (none, buf.take total ++ (trace.map (fun r => r.chunk)).flatten, n) := by
  induction trace with
  | nil =>
    intro buf total _ hto _ hsum
    simp at hsum
    omega
  | cons r rs ih =>
    intro buf total hok hto hbuf hsum
    obtain ⟨herr, hne⟩ := hok r (by simp)
    have hlen : r.chunk.length ≠ 0 := fun h => hne (List.length_eq_zero.mp h)
    simp only [List.map_cons, List.sum_cons] at hsum
    simp only [readDataFromSocket, herr]
    rw [if_neg (by simp), if_neg (by simp), if_neg (by simp), if_neg (by simp),
      if_neg (by simp [hlen])]
    by_cases hfin : total + r.chunk.length = n
    · rw [if_pos hfin]
      have hrs : rs = [] :=
        chunks_sum_zero rs (fun s hs => (hok s (by simp [hs])).2) (by omega)
      subst hrs
      unfold writeAt
      rw [List.drop_eq_nil_of_le (by omega)]
      simp [hfin]
    · rw [if_neg hfin]
      rw [ih (writeAt buf total r.chunk) (total + r.chunk.length)
        (fun s hs => hok s (by simp [hs])) (by omega)
        (by rw [writeAt_length buf r.chunk total (by omega)]; exact hbuf) (by omega)]
      have htake : (writeAt buf total r.chunk).take (total + r.chunk.length) =
          buf.take total ++ r.chunk := by
        unfold writeAt
        have hlen2 : (buf.take total ++ r.chunk).length = total + r.chunk.length := by
          simp [List.length_take]
          omega
        rw [← hlen2, List.take_left]
      rw [htake]
      simp [List.append_assoc]

end PacketStreamer

namespace PacketStreamer

/-- C6: given a target count `n ≥ 1` and a source delivering its bytes in
arbitrary non-empty error-free chunks, `readDataFromSocket` accumulates
across the reads and returns success exactly once the chunks total `n`
bytes, with the first `n` bytes of the buffer equal to the delivered bytes
in order (no loss, no duplication); while fewer than `n` bytes have been
delivered it is still waiting and has not returned. -/
theorem readDataFromSocket_accumulates (n : Nat) (trace : List ReadResult)
    (buf : List Nat) (hn : 1 ≤ n) (hbuf : buf.length = n)
    (hok : ∀ r ∈ trace, r.err = none ∧ r.chunk ≠ []) :
    ((trace.map (fun r => r.chunk.length)).sum = n →
      readDataFromSocket trace n buf 0 =
        some (none, (trace.map (fun r => r.chunk)).flatten, n)) ∧
    ((trace.map (fun r => r.chunk.length)).sum < n →
      readDataFromSocket trace n buf 0 = none) := by
  constructor
  · intro hsum
    have h := readDataFromSocket_chunks_exact n trace buf 0 hok (by omega) hbuf
      (by omega)
    simpa using h
  · intro hlt
    obtain ⟨b, hb⟩ := readDataFromSocket_chunks_step n trace [] buf 0 hok (by omega)
    rw [List.append_nil] at hb
    rw [hb]
    rfl

theorem readDataFromSocket_accumulates_witness :
    (1 ≤ 3 ∧ ([9, 9, 9] : List Nat).length = 3 ∧
      (∀ r ∈ [ReadResult.mk [5] none, ReadResult.mk [6] none, ReadResult.mk [7] none],
        r.err = none ∧ r.chunk ≠ [])) ∧
    ((([ReadResult.mk [5] none, ReadResult.mk [6] none, ReadResult.mk [7] none].map
          (fun r => r.chunk.length)).sum = 3 →
        readDataFromSocket
            [ReadResult.mk [5] none, ReadResult.mk [6] none, ReadResult.mk [7] none] 3
            [9, 9, 9] 0 =
          some (none,
            (([ReadResult.mk [5] none, ReadResult.mk [6] none,
                ReadResult.mk [7] none].map (fun r => r.chunk)).flatten), 3)) ∧
      (([ReadResult.mk [5] none, ReadResult.mk [6] none, ReadResult.mk [7] none].map
          (fun r => r.chunk.length)).sum < 3 →
        readDataFromSocket
            [ReadResult.mk [5] none, ReadResult.mk [6] none, ReadResult.mk [7] none] 3
            [9, 9, 9] 0 = none)) :=
  ⟨⟨by decide, by decide, by decide⟩,
   readDataFromSocket_accumulates 3
     [ReadResult.mk [5] none, ReadResult.mk [6] none, ReadResult.mk [7] none]
     [9, 9, 9] (by decide) (by decide) (by decide)⟩

/-- C7: a source that signals end-of-stream after delivering fewer than `n`
bytes in non-empty error-free chunks makes `readDataFromSocket` return the
classified abrupt-close failure (never a silent success), reporting the
number of bytes that had accumulated. -/
theorem readDataFromSocket_abrupt_close (n : Nat) (chunks : List ReadResult)
    (buf : List Nat)
    (hok : ∀ r ∈ chunks, r.err = none ∧ r.chunk ≠ [])
    (hlt : (chunks.map (fun r => r.chunk.length)).sum < n) :
    ∃ b, readDataFromSocket
        (chunks ++ [{ chunk := [], err := some ReadErr.eof }]) n buf 0 =
      some (some SockErr.abruptClose, b,
        (chunks.map (fun r => r.chunk.length)).sum) := by
  obtain ⟨b, hb⟩ := readDataFromSocket_chunks_step n chunks
    [{ chunk := [], err := some ReadErr.eof }] buf 0 hok (by omega)
  refine ⟨b, ?_⟩
  rw [hb]
  simp only [readDataFromSocket]
  rw [if_neg (by simp), if_pos ⟨by trivial, by omega⟩, writeAt_nil]
  simp

theorem readDataFromSocket_abrupt_close_witness :
    ((∀ r ∈ [ReadResult.mk [5] none], r.err = none ∧ r.chunk ≠ []) ∧
      (([ReadResult.mk [5] none].map (fun r => r.chunk.length)).sum < 3)) ∧
    (∃ b, readDataFromSocket
        ([ReadResult.mk [5] none] ++ [{ chunk := [], err := some ReadErr.eof }]) 3
        [9, 9, 9] 0 =
      some (some SockErr.abruptClose, b,
        ([ReadResult.mk [5] none].map (fun r => r.chunk.length)).sum)) :=
  ⟨⟨by decide, by decide⟩,
   readDataFromSocket_abrupt_close 3 [ReadResult.mk [5] none] [9, 9, 9]
     (by decide) (by decide)⟩

lemma readDataFromSocket_timeout (n : Nat) (chunks : List ReadResult)
    (buf : List Nat) (rest : List ReadResult)
    (hok : ∀ r ∈ chunks, r.err = none ∧ r.chunk ≠ [])
    (hlt : (chunks.map (fun r => r.chunk.length)).sum < n) :
    ∃ b, readDataFromSocket
        (chunks ++ ({ chunk := [], err := some ReadErr.timeout } :: rest)) n buf 0 =
      some (some SockErr.timeout, b,
        (chunks.map (fun r => r.chunk.length)).sum) := by
  obtain ⟨b, hb⟩ := readDataFromSocket_chunks_step n chunks
    ({ chunk := [], err := some ReadErr.timeout } :: rest) buf 0 hok (by omega)
  refine ⟨b, ?_⟩
  rw [hb]
  simp only [readDataFromSocket]
  rw [if_neg (by simp), if_neg (by simp), if_pos ⟨by trivial, by omega⟩,
    writeAt_nil]
  simp

/-- C3 (amended): a read-deadline timeout before the header read completes —
whether or not bytes of the current read have already accumulated — makes
`readDataFromSocket` return the timeout error, which `readPkts` treats as
terminal: the event is not logged as an error, but the connection and the
frame queue are closed, no frame is emitted, and the loop is not
retried. -/
theorem timeout_is_terminal (maxFrameBytes : Nat) (buf : List Nat)
    (q : List CompressData) (sq : List Nat)
    (chunks rest payTrace : List ReadResult)
    (hok : ∀ r ∈ chunks, r.err = none ∧ r.chunk ≠ [])
    (hlt : (chunks.map (fun r => r.chunk.length)).sum < totalHdrLen) :
    ∃ b, readDataFromSocket
        (chunks ++ ({ chunk := [], err := some ReadErr.timeout } :: rest))
        totalHdrLen (buf.take totalHdrLen) 0 =
      some (some SockErr.timeout, b,
        (chunks.map (fun r => r.chunk.length)).sum) ∧
      readPktsIter maxFrameBytes buf q sq
          (chunks ++ ({ chunk := [], err := some ReadErr.timeout } :: rest))
          payTrace =
        some { buf := b ++ buf.drop totalHdrLen, q := q, sq := sq,
               connCloses := 1, chanCloses := 1, terminated := true,
               emitted := none, frameDropped := false, sizeDropped := false,
               payloadReadAttempted := false, loggedError := false } := by
  obtain ⟨b, hb⟩ := readDataFromSocket_timeout totalHdrLen chunks
    (buf.take totalHdrLen) rest hok hlt
  refine ⟨b, hb, ?_⟩
  unfold readPktsIter
  rw [hb]
  rfl

theorem timeout_is_terminal_witness :
    ((∀ r ∈ [ReadResult.mk [1, 2, 3] none], r.err = none ∧ r.chunk ≠ []) ∧
      ([ReadResult.mk [1, 2, 3] none].map (fun r => r.chunk.length)).sum <
        totalHdrLen) ∧
    (∃ b, readDataFromSocket
        ([ReadResult.mk [1, 2, 3] none] ++
          ({ chunk := [], err := some ReadErr.timeout } :: []))
        totalHdrLen ((List.replicate 16 0 : List Nat).take totalHdrLen) 0 =
      some (some SockErr.timeout, b,
        ([ReadResult.mk [1, 2, 3] none].map (fun r => r.chunk.length)).sum) ∧
      readPktsIter 16 (List.replicate 16 0) [] []
          ([ReadResult.mk [1, 2, 3] none] ++
            ({ chunk := [], err := some ReadErr.timeout } :: [])) [] =
        some { buf := b ++ (List.replicate 16 0 : List Nat).drop totalHdrLen,
               q := [], sq := [], connCloses := 1, chanCloses := 1,
               terminated := true, emitted := none, frameDropped := false,
               sizeDropped := false, payloadReadAttempted := false,
               loggedError := false }) :=
  ⟨⟨by decide, by decide⟩,
   timeout_is_terminal 16 (List.replicate 16 0) [] []
     [ReadResult.mk [1, 2, 3] none] [] [] (by decide) (by decide)⟩

end PacketStreamer

namespace PacketStreamer

lemma hdr9_length (L f : Nat) :
    (hdrData ++ (u32leEncode L ++ [f])).length = totalHdrLen := rfl

lemma validateHeader_hdr9 (m L f : Nat) (hL : L < 4294967296)
    (hbound : (L : Int) ≤ (m : Int) - 9) :
    validateHeader m (hdrData ++ (u32leEncode L ++ [f])) = some (L, f != 0) := by
  have hmag : (hdrData ++ (u32leEncode L ++ [f])).take hdrData.length = hdrData :=
    List.take_left hdrData _
  have hdec : u32leDecode ((hdrData ++ (u32leEncode L ++ [f])).drop hdrData.length) = L := by
    rw [List.drop_left]
    exact u32leDecode_encode L [f] hL
  have hflag : (hdrData ++ (u32leEncode L ++ [f])).getD
      (hdrData.length + payloadMarkerLen) 0 = f := rfl
  unfold validateHeader
  rw [if_pos hmag]
  simp only [hdec, hflag]
  rw [if_neg (by simp only [totalHdrLen_eq]; omega)]

lemma frame_buf2_data (P : List Nat) (f : Nat) (Z : List Nat) :
    (((hdrData ++ (u32leEncode P.length ++ [f])) ++ P ++ Z).drop totalHdrLen).take
      P.length = P := by
  rw [List.append_assoc, ← hdr9_length P.length f, List.drop_left]
  exact List.take_left P Z

lemma frame_buf2_flag (P : List Nat) (f : Nat) (Z : List Nat) :
    ((hdrData ++ (u32leEncode P.length ++ [f])) ++ P ++ Z).getD
      (hdrData.length + payloadMarkerLen) 0 = f := by
  rw [List.append_assoc,
    List.getD_append _ _ _ _ (by rw [hdr9_length P.length f]; decide)]
  rfl

end PacketStreamer

namespace PacketStreamer

/-- C1: encode-then-decode round-trip.  For a payload `P` with
`length P ≤ maxFrameBytes - totalHdrLen` (and small enough that its 4-byte
little-endian length encoding exists) and a flag byte `f`, feeding the
buffer magic ++ le32(length P) ++ f ++ P through one `readPkts` iteration
yields a frame whose payload is exactly `P` and whose `IsCompressed` flag
is `f != 0` (true iff `f` is non-zero), without terminating the
connection. -/
theorem header_roundtrip (maxFrameBytes : Nat) (P : List Nat) (f : Nat)
    (buf : List Nat) (q : List CompressData) (sq : List Nat)
    (hP : (P.length : Int) ≤ (maxFrameBytes : Int) - (totalHdrLen : Int))
    (h32 : P.length < 4294967296) (_hf : f < 256)
    (hbuf : buf.length = maxFrameBytes) :
    ∃ out, readPktsIter maxFrameBytes buf q sq
        [{ chunk := hdrData ++ (u32leEncode P.length ++ [f]), err := none }]
        [{ chunk := P, err := none }] = some out ∧
      out.emitted = some { Data := P, IsCompressed := f != 0 } ∧
      out.terminated = false := by
  rw [totalHdrLen_eq] at hP
  have h9 : 9 ≤ maxFrameBytes := by omega
  have hlen9 : (hdrData ++ (u32leEncode P.length ++ [f])).length = totalHdrLen :=
    hdr9_length P.length f
  have h1 : readDataFromSocket
      [{ chunk := hdrData ++ (u32leEncode P.length ++ [f]), err := none }]
      totalHdrLen (buf.take totalHdrLen) 0 =
      some (none, hdrData ++ (u32leEncode P.length ++ [f]), totalHdrLen) :=
    readDataFromSocket_single_full _ _ _ _ hlen9 (by decide)
      (by simp [List.length_take])
  have hval : validateHeader maxFrameBytes
      ((hdrData ++ (u32leEncode P.length ++ [f])) ++ buf.drop totalHdrLen) =
      some (P.length, f != 0) := by
    rw [validateHeader_append maxFrameBytes _ _ hlen9]
    exact validateHeader_hdr9 maxFrameBytes P.length f h32 (by omega)
  have hsub : ((hdrData ++ (u32leEncode P.length ++ [f])) ++
      buf.drop totalHdrLen).drop totalHdrLen = buf.drop totalHdrLen := by
    rw [← hlen9, List.drop_left]
  have hsublen : ((buf.drop totalHdrLen).take P.length).length = P.length := by
    simp only [List.length_take, List.length_drop, totalHdrLen_eq, hbuf]
    omega
  have h2 : readDataFromSocket [{ chunk := P, err := none }] P.length
      ((buf.drop totalHdrLen).take P.length) 0 = some (none, P, P.length) := by
    by_cases hPe : P = []
    · subst hPe
      rw [readDataFromSocket_zero_read]
      simp
    · exact readDataFromSocket_single_full P P.length _ []
        rfl (List.length_pos.mpr hPe) (by simp [List.length_take])
  have htk : ((hdrData ++ (u32leEncode P.length ++ [f])) ++
      buf.drop totalHdrLen).take totalHdrLen =
      hdrData ++ (u32leEncode P.length ++ [f]) := by
    rw [← hlen9, List.take_left]
  unfold readPktsIter
  simp only [h1, hval, hsub, h2, htk, frame_buf2_data, frame_buf2_flag]
  exact ⟨_, rfl, rfl, rfl⟩

theorem header_roundtrip_witness :
    (((([7, 8, 9] : List Nat).length : Int) ≤ (16 : Int) - (totalHdrLen : Int)) ∧
      ([7, 8, 9] : List Nat).length < 4294967296 ∧ 1 < 256 ∧
      (List.replicate 16 0 : List Nat).length = 16) ∧
    (∃ out, readPktsIter 16 (List.replicate 16 0) [] []
        [{ chunk := hdrData ++ (u32leEncode ([7, 8, 9] : List Nat).length ++ [1]),
           err := none }]
        [{ chunk := [7, 8, 9], err := none }] = some out ∧
      out.emitted = some { Data := [7, 8, 9], IsCompressed := (1 : Nat) != 0 } ∧
      out.terminated = false) :=
  ⟨⟨by decide, by decide, by decide, by decide⟩,
   header_roundtrip 16 [7, 8, 9] 1 (List.replicate 16 0) [] []
     (by decide) (by decide) (by decide) (by decide)⟩

end PacketStreamer

namespace PacketStreamer

lemma getD_take_lt (l : List Nat) (m n : Nat) (h : n < m) :
    (l.take m).getD n 0 = l.getD n 0 := by
  rw [List.getD_eq_getElem?_getD, List.getD_eq_getElem?_getD,
    List.getElem?_take_of_lt h]

lemma drop_append_full (A D : List Nat) (k : Nat) (hA : A.length = k) :
    (A ++ D).drop k = D := by
  rw [← hA]
  exact List.drop_left A D

lemma take_append_full (B C : List Nat) (k : Nat) (hB : B.length = k) :
    (B ++ C).take k = B := by
  rw [← hB]
  exact List.take_left B C

/-- C5 (amended): when an underlying read returns zero bytes with no error,
`readDataFromSocket` returns success with nothing read and the buffer
untouched — an outcome the caller cannot distinguish from a completed read.
`readPkts` therefore does not stop the connection: it goes on to interpret
the (unfilled, stale) buffer as a frame header, and when those stale bytes
form a valid header it proceeds to the payload read and emits a frame built
from stale buffer contents. -/
theorem zero_read_success_not_distinguished (maxFrameBytes : Nat)
    (buf : List Nat) (q : List CompressData) (sq : List Nat)
    (rest : List ReadResult) (len : Nat) (c : Bool)
    (hval : validateHeader maxFrameBytes buf = some (len, c))
    (hbuf : buf.length = maxFrameBytes) :
    (∀ (n total : Nat) (b : List Nat) (rs : List ReadResult),
      readDataFromSocket ({ chunk := [], err := none } :: rs) n b total =
        some (none, b, total)) ∧
    (∃ out, readPktsIter maxFrameBytes buf q sq
        ({ chunk := [], err := none } :: rest) [{ chunk := [], err := none }] =
      some out ∧ out.terminated = false ∧ out.payloadReadAttempted = true ∧
      out.emitted = some { Data := (buf.drop totalHdrLen).take len,
                           IsCompressed := c }) := by
  obtain ⟨hmag4, hlen_eq, hle, hflag⟩ := validateHeader_inv hval
  rw [totalHdrLen_eq] at hle
  have h9 : 9 ≤ maxFrameBytes := by omega
  have hlenb : len + 9 ≤ maxFrameBytes := by omega
  constructor
  · intro n total b rs
    exact readDataFromSocket_zero_read rs n total b
  · have h1 : readDataFromSocket ({ chunk := [], err := none } :: rest)
        totalHdrLen (buf.take totalHdrLen) 0 =
        some (none, buf.take totalHdrLen, 0) :=
      readDataFromSocket_zero_read rest totalHdrLen 0 (buf.take totalHdrLen)
    have h2 : readDataFromSocket [{ chunk := [], err := none }] len
        ((buf.drop totalHdrLen).take len) 0 =
        some (none, (buf.drop totalHdrLen).take len, 0) :=
      readDataFromSocket_zero_read [] len 0 ((buf.drop totalHdrLen).take len)
    have hsublen : ((buf.drop totalHdrLen).take len).length = len := by
      simp only [List.length_take, List.length_drop, totalHdrLen_eq, hbuf]
      omega
    have htklen : (buf.take totalHdrLen).length = totalHdrLen := by
      simp only [List.length_take, totalHdrLen_eq, hbuf]
      omega
    have hdata : ((buf.take totalHdrLen ++ (buf.drop totalHdrLen).take len ++
        buf.drop (totalHdrLen + len)).drop totalHdrLen).take len =
        (buf.drop totalHdrLen).take len := by
      rw [List.append_assoc, drop_append_full _ _ _ htklen,
        take_append_full _ _ _ hsublen]
    have hflg : (buf.take totalHdrLen ++ (buf.drop totalHdrLen).take len ++
        buf.drop (totalHdrLen + len)).getD (hdrData.length + payloadMarkerLen) 0 =
        buf.getD (hdrData.length + payloadMarkerLen) 0 := by
      rw [List.append_assoc, List.getD_append _ _ _ _ (by rw [htklen]; decide),
        getD_take_lt buf totalHdrLen _ (by decide)]
    unfold readPktsIter
    simp only [h1, List.take_append_drop, hval, h2, hdata, hflg, ← hflag]
    exact ⟨_, rfl, rfl, rfl, rfl⟩

theorem zero_read_success_not_distinguished_witness :
    (validateHeader 9 [0xde, 0xef, 0xec, 0xe0, 0, 0, 0, 0, 0] = some (0, false) ∧
      ([0xde, 0xef, 0xec, 0xe0, 0, 0, 0, 0, 0] : List Nat).length = 9) ∧
    ((∀ (n total : Nat) (b : List Nat) (rs : List ReadResult),
        readDataFromSocket ({ chunk := [], err := none } :: rs) n b total =
          some (none, b, total)) ∧
      (∃ out, readPktsIter 9 [0xde, 0xef, 0xec, 0xe0, 0, 0, 0, 0, 0] [] []
          ({ chunk := [], err := none } :: [])
          [{ chunk := [], err := none }] =
        some out ∧ out.terminated = false ∧ out.payloadReadAttempted = true ∧
        out.emitted = some { Data := (([0xde, 0xef, 0xec, 0xe0, 0, 0, 0, 0, 0] :
            List Nat).drop totalHdrLen).take 0, IsCompressed := false })) :=
  ⟨⟨by decide, by decide⟩,
   zero_read_success_not_distinguished 9 [0xde, 0xef, 0xec, 0xe0, 0, 0, 0, 0, 0]
     [] [] [] 0 false (by decide) (by decide)⟩

end PacketStreamer
